import Mathlib

/-!
Shallow embedding of `notmuch_abook.py` (TomasTomecek/notmuch-abook), a
SQLite-backed email address book for notmuch mail.

The store is an fts4 virtual table `AddressBook(Name, Address)`; inserts go
through a view `AddressBookView` whose `INSTEAD OF INSERT` trigger aborts when
a row with the same `Address` (binary, case-sensitive comparison) already
exists.  We model the store as a list of records in docid (insertion) order,
and the SQL statements the program builds by string interpolation are parsed
and run by small executable models of the SQLite statement families the
program can actually produce.  The UPDATE family is lexed with escape-aware
string literals, so doubled-quote escapes execute faithfully and a lone
unpaired quote is an unterminated-token error, as in SQLite; statements that
lex but fall outside the reachable two-literal frame (e.g. injection-shaped
inputs, which real SQLite would execute) are reported as a distinct
unmodelled-fragment error on which no theorem relies.

External collaborators (the `re` regex engine, `email.utils.getaddresses`,
`parseaddr` and `formataddr`) are taken as function parameters of the
operations that call them, exactly at their call sites.
-/

/-- Characters used in the Python source's string literals, built by code so
that the embedding's own literals stay escape-free. -/
def squote : Char := Char.ofNat 39

def dquote : Char := Char.ofNat 34

def tabChar : Char := Char.ofNat 9

def squoteS : String := String.mk [squote]

def dquoteS : String := String.mk [dquote]

def tabS : String := String.mk [tabChar]

/-- Python `str.split(sep)` for a one-character separator, at the level of
character lists (always returns at least one segment). -/
def splitChar (sep : Char) : List Char → List (List Char)
  | [] => [[]]
  | c :: rest =>
    match splitChar sep rest with
    | [] => [[]]
    | h :: t => if c = sep then [] :: h :: t else (c :: h) :: t

/-- Python `str.strip(chars)`: drop the given characters from both ends. -/
def pyStrip (s : String) (cs : List Char) : String :=
  String.mk (((s.toList.dropWhile (fun c => cs.contains c)).reverse.dropWhile
    (fun c => cs.contains c)).reverse)

/-- Whitespace stripped by Python's no-argument `str.strip()`. -/
def wsChars : List Char :=
  [Char.ofNat 32, Char.ofNat 9, Char.ofNat 10, Char.ofNat 13, Char.ofNat 11, Char.ofNat 12]

def pyStripWs (s : String) : String := pyStrip s wsChars

/-- Python's `sub in s` substring test, at the level of character lists. -/
def containsSub (sub : List Char) : List Char → Bool
  | [] => sub.isEmpty
  | c :: rest => List.isPrefixOf sub (c :: rest) || containsSub sub rest

/-- Python `str.startswith`. -/
def pyStartsWith (s pre : String) : Bool := List.isPrefixOf pre.toList s.toList

/-- Python `str.endswith`. -/
def pyEndsWith (s suf : String) : Bool :=
  List.isPrefixOf suf.toList.reverse s.toList.reverse

/-- A row of the `AddressBook` table. -/
structure Record where
  Name : String
  Address : String
deriving Repr, DecidableEq

/-- The `AddressBook` fts4 table, rows in docid (insertion) order. -/
abbrev Store := List Record

/-- State of `Ignorer.__init__`: only the configured ignore file matters; `none` models
`ignorefile = None`, `some lines` the lines of the configured file. -/
structure Ignorer where
  ignorefile : Option (List String)

/-- Model of `Ignorer.create_regexes`: returns (regex patterns, literal substrings).
A stripped line is skipped when blank or starting with `#`; a line wrapped in
slashes contributes a case-insensitive regex pattern (with all leading and
trailing slashes stripped); any other line is a literal substring. -/
def create_regexes (lines : List String) : List String × List String :=
  lines.foldl
    (fun acc rawLine =>
      let line := pyStripWs rawLine
      if line = "" || pyStartsWith line "#" then acc
      else if pyStartsWith line "/" && pyEndsWith line "/" then
        (acc.1 ++ [pyStrip line [Char.ofNat 47]], acc.2)
      else
        (acc.1, acc.2 ++ [line]))
    ([], [])

/-- Model of `Ignorer.ignore_address`.  The parameter `rs` models `re`'s case-insensitive
`pattern.search(address)` (an external library). -/
def Ignorer.ignore_address (rs : String → String → Bool) (ig : Ignorer)
    (address : String) : Bool :=
  match ig.ignorefile with
  | none => false
  | some lines =>
    let compiled := create_regexes lines
    if compiled.2.any (fun sub => containsSub sub.toList address.toList) then true
    else compiled.1.any (fun pat => rs pat address)

/-- Characters stripped from a display name: `'; '`. -/
def nameStripChars : List Char := [Char.ofNat 59, Char.ofNat 32]

/-- Characters stripped from an address: `';\'" '`. -/
def addrStripChars : List Char := [Char.ofNat 59, squote, dquote, Char.ofNat 32]

def normName (n : String) : String := pyStrip n nameStripChars

/-- Python `str.lower()` (ASCII case folding, as `Char.toLower` provides). -/
def pyLower (s : String) : String := String.mk (s.toList.map Char.toLower)

def normAddr (a : String) : String := pyStrip (pyLower a) addrStripChars

namespace MailParser

/-- Model of `MailParser.parse_mail`, from the point where
`email.utils.getaddresses` (an external library) has produced the raw
(display-name, address) pairs of the joined `to`/`from`/`cc`/`bcc` header
values.  `state` is the instance's `self.addresses` dict, modelled as an
association list from normalized address to name; returns the yielded
(name, address) tuples and the final dict. -/
def parse_mail : List (String × String) → List (String × String) →
    List (String × String) × List (String × String)
  | state, [] => ([], state)
  | state, (n, rawa) :: rest =>
    let name := normName n
    let address := normAddr rawa
    if (address != "") && !(state.any (fun p => p.1 == address)) then
      let res := parse_mail ((address, name) :: state) rest
      ((name, address) :: res.1, res.2)
    else
      parse_mail state rest

end MailParser

namespace SQLiteStorage

/-- One `INSERT INTO AddressBookView VALUES(?,?)`: the `insert_into_ab`
trigger raises `ABORT` when a row with the same `Address` already exists
(binary, case-sensitive comparison), otherwise appends the row. -/
def insertView (s : Store) (name address : String) : Except String Store :=
  if s.any (fun r => r.Address == address) then
    Except.error "column name is not unique"
  else
    Except.ok (s ++ [{ Name := name, Address := address }])

/-- Model of `SQLiteStorage.create`: the file system is `none` (no backing file) or
`some s` (a file holding store `s`); raises `IOError` when the file exists,
otherwise creates the empty table. -/
def create (fs : Option Store) : Except String (Option Store) :=
  match fs with
  | some _ => Except.error "File exists."
  | none => Except.ok (some [])

/-- The file system state after running `create` (an error leaves it as is). -/
def runCreate (fs : Option Store) : Option Store :=
  match create fs with
  | Except.ok fs2 => fs2
  | Except.error _ => fs

/-- Model of `SQLiteStorage.delete_db`: removes the backing file if present. -/
def delete_db (_fs : Option Store) : Option Store := none

/-- Model of `SQLiteStorage.init`: bulk-loads every generated (name, address) pair
through the view, silently skipping duplicate-address `IntegrityError`s;
returns the number of successful inserts and the resulting store.  (No ignore
filtering happens on this path.) -/
def init (s : Store) (gen : List (String × String)) : Nat × Store :=
  gen.foldl
    (fun acc elt =>
      match insertView acc.2 elt.1 elt.2 with
      | Except.ok s2 => (acc.1 + 1, s2)
      | Except.error _ => acc)
    (0, s)

/-- In `SQLiteStorage.update`, `present = cur.execute("SELECT 1 FROM
AddressBook WHERE address = ?", ...)` binds `present` to the cursor object
itself, which is always truthy in Python — the membership test the code
intends is never performed. -/
def cursorTruthy : Bool := true

/-- Model of `SQLiteStorage.update` (the upsert): `addr = (name, address)`.  Returns
the Python return value and the resulting store. -/
def update (rs : String → String → Bool) (ig : Ignorer) (s : Store)
    (addr : String × String) (replace : Bool) : Bool × Store :=
  if Ignorer.ignore_address rs ig addr.2 then
    (false, s)
  else if replace then
    if cursorTruthy then
      (true, s.map (fun r =>
        if r.Address == addr.2 then { r with Name := addr.1 } else r))
    else
      match insertView s addr.1 addr.2 with
      | Except.ok s2 => (true, s2)
      | Except.error _ => (false, s)
  else
    match insertView s addr.1 addr.2 with
    | Except.ok s2 => (true, s2)
    | Except.error _ => (false, s)

/-- Repeated upserts: fold `update` over a list of ((name, address), replace)
offers, keeping the store. -/
def updateMany (rs : String → String → Bool) (ig : Ignorer) (s : Store)
    (offers : List ((String × String) × Bool)) : Store :=
  offers.foldl (fun st o => (update rs ig st o.1 o.2).2) s

/-- Fixed head of the statement `SQLiteStorage.change_name` interpolates into. -/
def updHead : String := "UPDATE AddressBook SET name = "

/-- Fixed middle piece of the `change_name` statement. -/
def updMid : String := " WHERE address = "

/-- The SQL text `"UPDATE AddressBook SET name = '%s' WHERE address = '%s'"
% (name, address)` built by `SQLiteStorage.change_name`. -/
def change_name_sql (name address : String) : String :=
  updHead ++ squoteS ++ name ++ squoteS ++ updMid ++ squoteS ++ address ++ squoteS

/-- Lexer modes for SQLite's tokenizer over a statement text: scanning plain
statement text, scanning inside a string literal, or having just seen a quote
inside a literal (which closes the literal unless it is doubled). -/
inductive LexMode where
  | plain
  | lit
  | litQuote

/-- Model of SQLite lexing a statement into its alternating plain-text and
string-literal pieces (plain, literal value, plain, …, plain).  A doubled
quote inside a literal denotes one quote character of the value, exactly as
in SQLite; a literal still open at the end of the input is an unterminated
token and the whole statement is rejected (`none`), as in SQLite. -/
def sqlLex : LexMode → List Char → Option (List (List Char))
  | LexMode.plain, [] => some [[]]
  | LexMode.plain, c :: rest =>
    if c = squote then
      match sqlLex LexMode.lit rest with
      | none => none
      | some segs => some ([] :: segs)
    else
      match sqlLex LexMode.plain rest with
      | none => none
      | some [] => none
      | some (h :: t) => some ((c :: h) :: t)
  | LexMode.lit, [] => none
  | LexMode.lit, c :: rest =>
    if c = squote then sqlLex LexMode.litQuote rest
    else
      match sqlLex LexMode.lit rest with
      | none => none
      | some [] => none
      | some (h :: t) => some ((c :: h) :: t)
  | LexMode.litQuote, [] => some [[], []]
  | LexMode.litQuote, c :: rest =>
    if c = squote then
      match sqlLex LexMode.lit rest with
      | none => none
      | some [] => none
      | some (h :: t) => some ((squote :: h) :: t)
    else
      match sqlLex LexMode.plain rest with
      | none => none
      | some [] => none
      | some (h :: t) => some ([] :: (c :: h) :: t)

/-- SQLite running a statement of `change_name`'s family.  The statement text
is lexed with escape-aware string literals; an unterminated literal (as a
lone unpaired quote smuggled through `name` or `address` produces) is a
syntax error, as in SQLite.  A statement whose lexed pieces are exactly the
fixed frame `UPDATE AddressBook SET name = '…' WHERE address = '…'` — which
includes inputs whose quotes are all doubled, since those lex back into the
frame with the escaped values — sets `Name` on every row whose `Address`
equals the address literal's value (binary comparison) and succeeds.  A
statement that lexes but falls outside the two-literal frame (as quote
smuggling can produce, e.g. an injected `OR` clause, which real SQLite would
execute) is not decided by this model: it is reported as a distinct error
that no theorem relies on. -/
def execUpdate (sql : String) (s : Store) : Except String Store :=
  match sqlLex LexMode.plain sql.toList with
  | none => Except.error "unrecognized token"
  | some segs =>
    match segs with
    | [p0, nm, p2, ad, p4] =>
      if p0 = updHead.toList ∧ p2 = updMid.toList ∧ p4 = [] then
        Except.ok (s.map (fun r =>
          if r.Address == String.mk ad then { r with Name := String.mk nm } else r))
      else Except.error "statement outside modelled SQL fragment"
    | _ => Except.error "statement outside modelled SQL fragment"

/-- Model of `SQLiteStorage.change_name`: builds the statement by `%` interpolation and
runs it; returns `True` unless the statement raises. -/
def change_name (s : Store) (address name : String) : Except String (Bool × Store) :=
  match execUpdate (change_name_sql name address) s with
  | Except.ok s2 => Except.ok (true, s2)
  | Except.error e => Except.error e

/-- Fixed head of the statement `SQLiteStorage.lookup` interpolates into. -/
def selHead : String := "SELECT * FROM AddressBook WHERE AddressBook MATCH "

/-- The SQL text `"""SELECT * FROM AddressBook WHERE AddressBook MATCH
'"%s*"'""" % match` built by `SQLiteStorage.lookup`. -/
def lookup_sql (m : String) : String :=
  selHead ++ squoteS ++ dquoteS ++ m ++ "*" ++ dquoteS ++ squoteS

/-- Strips an expected sequence of characters from the front, or fails. -/
def dropPrefixChars : List Char → List Char → Option (List Char)
  | [], l => some l
  | _ :: _, [] => none
  | p :: ps, c :: cs => if p = c then dropPrefixChars ps cs else none

/-- Parses a complete SQL string literal with no embedded quote (the fragment
reachable here; doubled-quote escapes are outside the model), returning its
contents. -/
def parseSqlStringLit (l : List Char) : Option (List Char) :=
  match splitChar squote l with
  | [a, interior, b] => if a = [] ∧ b = [] then some interior else none
  | _ => none

/-- A character the fts4 `simple` tokenizer keeps (ASCII alphanumerics; the
fragment exercised by the claims). -/
def isTokenChar (c : Char) : Bool := c.isAlpha || c.isDigit

/-- The fts4 `simple` tokenizer: maximal runs of token characters, folded to
lower case. -/
def simpleTokensAux : List Char → List Char → List (List Char)
  | [], cur => if cur = [] then [] else [cur.reverse]
  | c :: rest, cur =>
    if isTokenChar c then simpleTokensAux rest (c.toLower :: cur)
    else if cur = [] then simpleTokensAux rest []
    else cur.reverse :: simpleTokensAux rest []

def simpleTokens (l : List Char) : List (List Char) := simpleTokensAux l []

/-- All tokens of a row, over both indexed columns. -/
def ftsRecordTokens (r : Record) : List (List Char) :=
  simpleTokens r.Name.toList ++ simpleTokens r.Address.toList

/-- fts4 evaluating `AddressBook MATCH q`.  An odd number of double quotes
leaves an unterminated phrase, which fts4 rejects as a malformed MATCH
expression.  The well-formed shape the program intends — a single quoted
prefix phrase `"tok*"` over one plain token — selects the rows having some
token (in either column) that starts with the query token, in docid order.
Other fts4 query shapes are not reachable from the claims and are reported as
errors by this model. -/
def ftsEval (q : List Char) (s : Store) : Except String (List Record) :=
  if q.count dquote % 2 = 1 then Except.error "malformed MATCH expression"
  else
    match splitChar dquote q with
    | [[], inner, []] =>
      match inner.reverse with
      | c :: revTok =>
        if c = Char.ofNat 42 ∧ revTok.reverse ≠ [] ∧ revTok.reverse.all isTokenChar then
          Except.ok (s.filter (fun r =>
            (ftsRecordTokens r).any (fun t =>
              List.isPrefixOf (revTok.reverse.map Char.toLower) t)))
        else Except.error "fts query shape outside modelled fragment"
      | [] => Except.error "fts query shape outside modelled fragment"
    | _ => Except.error "fts query shape outside modelled fragment"

/-- SQLite executing the `SELECT … MATCH …` statement `lookup` builds: the
fixed head must be followed by one complete string literal holding the MATCH
expression, handed to fts4. -/
def execSelect (sql : String) (s : Store) : Except String (List Record) :=
  match dropPrefixChars selHead.toList sql.toList with
  | none => Except.error "near error: SQL syntax error"
  | some rest =>
    match parseSqlStringLit rest with
    | none => Except.error "near error: SQL syntax error"
    | some interior => ftsEval interior s

/-- Model of `SQLiteStorage.lookup`: interpolates the match string into the query text
and runs it. -/
def lookup (s : Store) (m : String) : Except String (List Record) :=
  execSelect (lookup_sql m) s

end SQLiteStorage

/-- Model of `format_address`: encodes a row in the requested output format.  `fa`
models `email.utils.formataddr` (an external library), used only by the
`email` format. -/
def format_address (fa : String × String → String) (r : Record)
    (output_format : String) : Except String String :=
  if output_format = "abook" then Except.ok (r.Address ++ tabS ++ r.Name)
  else if output_format = "email" then Except.ok (fa (r.Name, r.Address))
  else Except.error ("Unknown format: " ++ output_format)

/-- Model of `decode_line`: decodes one input line to `(name, address)`.  For `abook`,
`address, name = line.split(TAB)` is a two-element unpacking that raises
`ValueError` when the split yields three or more parts.  `pa` models
`email.utils.parseaddr` (an external library), used only by the `email`
format. -/
def decode_line (pa : String → String × String) (line input_format : String) :
    Except String (String × String) :=
  if input_format = "abook" then
    if line.toList.contains tabChar then
      match splitChar tabChar line.toList with
      | [a, n] => Except.ok (String.mk n, String.mk a)
      | _ => Except.error "ValueError: too many values to unpack"
    else Except.ok ("", line)
  else if input_format = "email" then Except.ok (pa line)
  else Except.error ("Unknown format: " ++ input_format)

/-- Model of `import_address_list` on the line-based path (`input_format` is `abook` or
`email`; the `csv` branch uses a row reader instead and is not modelled).
With `replace_all` the store file is deleted and recreated first; each line is
stripped, decoded, and upserted with `replace = not replace_all`.  A decode
error aborts the import (it propagates to the top-level handler). -/
def import_address_list (rs : String → String → Bool)
    (pa : String → String × String) (ig : Ignorer) (replace_all : Bool)
    (input_format : String) (lines : List String) (fs : Option Store) :
    Except String (Option Store) :=
  let fs0 := if replace_all then SQLiteStorage.runCreate (SQLiteStorage.delete_db fs) else fs
  lines.foldlM
    (fun cur line => do
      let na ← decode_line pa (pyStripWs line) input_format
      match cur with
      | none => Except.error "Database does not exists"
      | some s =>
        Except.ok (some (SQLiteStorage.update rs ig s na (!replace_all)).2))
    fs0

/-! ### Helper lemmas about the string plumbing -/

theorem toList_append (s t : String) : (s ++ t).toList = s.toList ++ t.toList := by
  cases s; cases t; rfl

theorem mk_toList (s : String) : String.mk s.toList = s := rfl

theorem toList_ne_nil (s : String) (h : s ≠ "") : s.toList ≠ [] := by
  intro hc
  apply h
  cases s with
  | mk d =>
    simp only [String.toList] at hc
    subst hc
    rfl

theorem splitChar_ne_nil (sep : Char) (l : List Char) : splitChar sep l ≠ [] := by
  induction l with
  | nil => simp [splitChar]
  | cons c rest ih =>
    simp only [splitChar]
    cases h : splitChar sep rest with
    | nil => simp
    | cons h' t' =>
      by_cases hc : c = sep <;> simp [hc]

theorem splitChar_cons_sep (sep : Char) (l : List Char) :
    splitChar sep (sep :: l) = [] :: splitChar sep l := by
  simp only [splitChar]
  cases h : splitChar sep l with
  | nil => exact absurd h (splitChar_ne_nil sep l)
  | cons h' t' => simp

theorem splitChar_append_no_sep (sep : Char) (a l : List Char) (h : List Char)
    (t : List (List Char)) (ha : sep ∉ a) (hl : splitChar sep l = h :: t) :
    splitChar sep (a ++ l) = (a ++ h) :: t := by
  induction a with
  | nil => simpa using hl
  | cons c a ih =>
    have hc : c ≠ sep := fun hcs => ha (hcs ▸ List.mem_cons_self c a)
    have ha2 : sep ∉ a := fun hm => ha (List.mem_cons_of_mem c hm)
    simp only [List.cons_append, splitChar]
    rw [show a.append l = a ++ l from rfl, ih ha2]
    simp [hc]

theorem splitChar_no_sep (sep : Char) (a : List Char) (ha : sep ∉ a) :
    splitChar sep a = [a] := by
  have := splitChar_append_no_sep sep a [] [] [] ha rfl
  simpa using this

theorem splitChar_sep_append (sep : Char) (a l : List Char) (ha : sep ∉ a) :
    splitChar sep (a ++ sep :: l) = a :: splitChar sep l := by
  cases h : splitChar sep l with
  | nil => exact absurd h (splitChar_ne_nil sep l)
  | cons h' t' =>
    have hsl : splitChar sep (sep :: l) = [] :: h' :: t' := by
      rw [splitChar_cons_sep, h]
    have := splitChar_append_no_sep sep a (sep :: l) [] (h' :: t') ha hsl
    simpa [h] using this

theorem splitChar_length (sep : Char) (l : List Char) :
    (splitChar sep l).length = l.count sep + 1 := by
  induction l with
  | nil => simp [splitChar]
  | cons c rest ih =>
    simp only [splitChar]
    cases h : splitChar sep rest with
    | nil => exact absurd h (splitChar_ne_nil sep rest)
    | cons h' t' =>
      rw [h] at ih
      by_cases hc : c = sep
      · subst hc
        simp only [if_pos rfl, List.count_cons_self]
        simpa using ih
      · have hbeq : (c == sep) = false := by simpa using hc
        simp only [if_neg hc, List.count_cons, hbeq, List.length_cons] at *
        simpa using ih

theorem dropPrefixChars_append (p r : List Char) :
    SQLiteStorage.dropPrefixChars p (p ++ r) = some r := by
  induction p with
  | nil => rfl
  | cons c p ih => simp [SQLiteStorage.dropPrefixChars, ih]

/-! ### Concrete collaborators for closed statements -/

/-- A regex engine under which no pattern matches (how `re.search` behaves on
the inputs of the concrete scenarios below, whose ignore files hold no regex
lines). -/
def reNever : String → String → Bool := fun _ _ => false

/-- A stand-in `email.utils.parseaddr`, never consulted by the abook paths
exercised below. -/
def paStub : String → String × String := fun _ => ("", "")

/-- A stand-in `email.utils.formataddr`, never consulted by the abook paths
exercised below. -/
def faStub : String × String → String := fun _ => ""

/-- An `Ignorer` with no ignore file configured. -/
def igNone : Ignorer := ⟨none⟩

/-- An `Ignorer` whose ignore file holds the single literal substring line
`spam@example.com`. -/
def igSpam : Ignorer := ⟨some ["spam@example.com"]⟩

/-! ### Claims -/

/-- C1: the claim says upsert with `replace=true` inserts the pair when the
address is absent.  The code's `present = cur.execute(...)` binds the cursor
object, which is always truthy, so the insert branch is dead: on the empty
store the upsert runs an `UPDATE` matching no row, returns `True`, and the
store stays empty. -/
theorem update_replace_true_inserts_nothing_on_empty_store :
    SQLiteStorage.update reNever igNone [] ("Alice", "a@x.com") true = (true, []) := rfl

/-- C2 (counterexample): the bulk-load path (`SQLiteStorage.init`) never
consults the ignorer, so an address the ignore file's substring rule rejects
is present in the store after a bulk-load pass that offers it. -/
theorem init_bulk_load_inserts_ignored_address :
    Ignorer.ignore_address reNever igSpam "spam@example.com" = true ∧
    (SQLiteStorage.init [] [("X", "spam@example.com")]).2 =
      [{ Name := "X", Address := "spam@example.com" }] := by
  exact ⟨by decide, rfl⟩

/-- C6: `create()` on a path whose backing file exists raises `IOError` and
leaves the file's contents unchanged. -/
theorem create_on_existing_file_errors_and_preserves_contents (s : Store) :
    SQLiteStorage.create (some s) = Except.error "File exists." ∧
    SQLiteStorage.runCreate (some s) = some s :=
  ⟨rfl, rfl⟩

/-- C8: the decoded pair is indeed passed to the upsert verbatim, but in merge
mode (no `--replace`) the upsert runs with `replace=True`, whose insert branch
is dead code; importing `A@X.com` over a store holding only `a@x.com` matches
no row case-sensitively and adds nothing — the store is returned unchanged
instead of gaining a second record. -/
theorem import_case_differing_address_adds_no_record :
    import_address_list reNever paStub igNone false "abook"
      [("A@X.com" ++ tabS ++ "Bob")] (some [{ Name := "Alice", Address := "a@x.com" }]) =
      Except.ok (some [{ Name := "Alice", Address := "a@x.com" }]) := rfl

theorem update_ignored_step (rs : String → String → Bool) (ig : Ignorer)
    (a : String) (h : Ignorer.ignore_address rs ig a = true) (s : Store)
    (n : String) (rep : Bool) :
    SQLiteStorage.update rs ig s (n, a) rep = (false, s) := by
  simp [SQLiteStorage.update, h]

/-- C2 (amended): an address the ignorer rejects is never added by the upsert
path: any number of upsert offers of that address (with any names and any
`replace` flags) returns `False` each time and leaves the store unchanged —
so if the address was absent it stays absent.  The bulk-load path, by
contrast, applies no ignore filtering (see the counterexample). -/
theorem update_ignored_address_leaves_store_unchanged
    (rs : String → String → Bool) (ig : Ignorer) (a : String)
    (h : Ignorer.ignore_address rs ig a = true) (s : Store)
    (offers : List ((String × String) × Bool))
    (hoff : ∀ o ∈ offers, o.1.2 = a) :
    SQLiteStorage.updateMany rs ig s offers = s ∧
    ∀ o ∈ offers, (SQLiteStorage.update rs ig s o.1 o.2).1 = false := by
  constructor
  · induction offers generalizing s with
    | nil => rfl
    | cons o os ih =>
      obtain ⟨⟨n, ad⟩, rep⟩ := o
      have had : ad = a := hoff ((n, ad), rep) (List.mem_cons_self _ _)
      subst had
      have hstep := update_ignored_step rs ig ad h s n rep
      have hoff2 : ∀ o ∈ os, o.1.2 = ad := fun o ho => hoff o (List.mem_cons_of_mem _ ho)
      calc SQLiteStorage.updateMany rs ig s (((n, ad), rep) :: os)
          = SQLiteStorage.updateMany rs ig (SQLiteStorage.update rs ig s (n, ad) rep).2 os := rfl
        _ = SQLiteStorage.updateMany rs ig s os := by rw [hstep]
        _ = s := ih s hoff2
  · intro o ho
    obtain ⟨⟨n, ad⟩, rep⟩ := o
    have had : ad = a := hoff ((n, ad), rep) ho
    subst had
    rw [update_ignored_step rs ig ad h s n rep]

theorem update_ignored_address_leaves_store_unchanged_witness :
    SQLiteStorage.updateMany reNever igSpam [{ Name := "Alice", Address := "a@x.com" }]
      [(("X", "spam@example.com"), false), (("Y", "spam@example.com"), true)] =
      [{ Name := "Alice", Address := "a@x.com" }] :=
  (update_ignored_address_leaves_store_unchanged reNever igSpam "spam@example.com"
    (by decide) _ _ (by decide)).1

/-- C3: once a non-replace upsert of `(n, a)` has succeeded, a second upsert
of `(n2, a)` with `replace=False` hits the trigger's duplicate-address abort,
returns `False`, and leaves the store unchanged; the store holds exactly one
record with address `a`, still carrying the first name. -/
theorem second_nonreplace_upsert_returns_false_keeps_name
    (rs : String → String → Bool) (ig : Ignorer) (s s2 : Store)
    (n n2 a : String)
    (h : SQLiteStorage.update rs ig s (n, a) false = (true, s2)) :
    SQLiteStorage.update rs ig s2 (n2, a) false = (false, s2) ∧
    s2.filter (fun r => r.Address == a) = [{ Name := n, Address := a }] := by
  by_cases hig : Ignorer.ignore_address rs ig a = true
  · rw [update_ignored_step rs ig a hig s n false] at h
    simp at h
  · have hig2 : Ignorer.ignore_address rs ig a = false := by simpa using hig
    by_cases hany : s.any (fun r => r.Address == a) = true
    · simp [SQLiteStorage.update, SQLiteStorage.insertView, hig2, hany] at h
    · have hany2 : s.any (fun r => r.Address == a) = false := by simpa using hany
      have hnin : ∀ r ∈ s, ¬ r.Address = a := by
        intro r hr hra
        exact hany (List.any_eq_true.mpr ⟨r, hr, by simp [hra]⟩)
      have hs2 : s2 = s ++ [{ Name := n, Address := a }] := by
        simp [SQLiteStorage.update, SQLiteStorage.insertView, hig2, hany2] at h
        exact h.symm
      subst hs2
      constructor
      · simp [SQLiteStorage.update, SQLiteStorage.insertView, hig2]
      · rw [List.filter_append]
        have hnil : s.filter (fun r => r.Address == a) = [] := by
          rw [List.filter_eq_nil_iff]
          intro r hr
          simpa using hnin r hr
        simp [hnil]

theorem second_nonreplace_upsert_returns_false_keeps_name_witness :
    SQLiteStorage.update reNever igNone
      [{ Name := "Alice", Address := "a@x.com" }] ("Bob", "a@x.com") false =
      (false, [{ Name := "Alice", Address := "a@x.com" }]) ∧
    ([{ Name := "Alice", Address := "a@x.com" }] : Store).filter
      (fun r => r.Address == "a@x.com") = [{ Name := "Alice", Address := "a@x.com" }] :=
  second_nonreplace_upsert_returns_false_keeps_name reNever igNone []
    [{ Name := "Alice", Address := "a@x.com" }] "Alice" "Bob" "a@x.com" rfl

theorem toList_mk (l : List Char) : (String.mk l).toList = l := rfl

theorem sqlLex_plain_append (a l : List Char) (h : List Char)
    (t : List (List Char)) (ha : squote ∉ a)
    (hl : SQLiteStorage.sqlLex SQLiteStorage.LexMode.plain l = some (h :: t)) :
    SQLiteStorage.sqlLex SQLiteStorage.LexMode.plain (a ++ l) = some ((a ++ h) :: t) := by
  induction a with
  | nil => simpa using hl
  | cons c a ih =>
    have hc : c ≠ squote := fun hcs => ha (hcs ▸ List.mem_cons_self c a)
    have ha2 : squote ∉ a := fun hm => ha (List.mem_cons_of_mem c hm)
    simp only [List.cons_append, SQLiteStorage.sqlLex]
    rw [show a.append l = a ++ l from rfl, ih ha2]
    simp [hc]

theorem sqlLex_lit_append (v l : List Char) (h : List Char)
    (t : List (List Char)) (hv : squote ∉ v)
    (hl : SQLiteStorage.sqlLex SQLiteStorage.LexMode.lit l = some (h :: t)) :
    SQLiteStorage.sqlLex SQLiteStorage.LexMode.lit (v ++ l) = some ((v ++ h) :: t) := by
  induction v with
  | nil => simpa using hl
  | cons c v ih =>
    have hc : c ≠ squote := fun hcs => hv (hcs ▸ List.mem_cons_self c v)
    have hv2 : squote ∉ v := fun hm => hv (List.mem_cons_of_mem c hm)
    simp only [List.cons_append, SQLiteStorage.sqlLex]
    rw [show v.append l = v ++ l from rfl, ih hv2]
    simp [hc]

theorem sqlLex_enterLit (l : List Char) (segs : List (List Char))
    (hl : SQLiteStorage.sqlLex SQLiteStorage.LexMode.lit l = some segs) :
    SQLiteStorage.sqlLex SQLiteStorage.LexMode.plain (squote :: l) =
      some ([] :: segs) := by
  simp [SQLiteStorage.sqlLex, hl]

theorem sqlLex_closeLit_cons (c : Char) (rest : List Char) (h : List Char)
    (t : List (List Char)) (hc : c ≠ squote)
    (hrest : SQLiteStorage.sqlLex SQLiteStorage.LexMode.plain rest = some (h :: t)) :
    SQLiteStorage.sqlLex SQLiteStorage.LexMode.lit (squote :: c :: rest) =
      some ([] :: (c :: h) :: t) := by
  simp [SQLiteStorage.sqlLex, hc, hrest]

theorem sqlLex_closeLit_end :
    SQLiteStorage.sqlLex SQLiteStorage.LexMode.lit [squote] = some [[], []] := rfl

/-- C4 (counterexample): `change_name` interpolates the raw name into the SQL
text, so a name holding a lone unpaired quote — here `O'Brien` — leaves an
unterminated string literal behind it; the statement is rejected and the call
fails instead of returning `True`. -/
theorem change_name_fails_on_quoted_name :
    SQLiteStorage.change_name [{ Name := "Bob", Address := "b@y.com" }] "b@y.com"
      ("O" ++ squoteS ++ "Brien") = Except.error "unrecognized token" := rfl

theorem sqlLex_change_name_sql (name address : String)
    (hn : squote ∉ name.toList) (ha : squote ∉ address.toList) :
    SQLiteStorage.sqlLex SQLiteStorage.LexMode.plain
        (SQLiteStorage.change_name_sql name address).toList =
      some [SQLiteStorage.updHead.toList, name.toList,
        SQLiteStorage.updMid.toList, address.toList, []] := by
  have hHead : squote ∉ SQLiteStorage.updHead.toList := by decide
  have hWnq : squote ∉ ("WHERE address = " : String).toList := by decide
  have hsql : (SQLiteStorage.change_name_sql name address).toList =
      SQLiteStorage.updHead.toList ++ squote :: (name.toList ++ squote ::
        (SQLiteStorage.updMid.toList ++ squote :: (address.toList ++ squote :: []))) := by
    simp only [SQLiteStorage.change_name_sql, toList_append, squoteS, toList_mk,
      List.append_assoc, List.singleton_append, List.cons_append, List.nil_append]
  have hmid : SQLiteStorage.updMid.toList =
      Char.ofNat 32 :: ("WHERE address = " : String).toList := rfl
  have e1 : SQLiteStorage.sqlLex SQLiteStorage.LexMode.lit
      (address.toList ++ squote :: []) = some [address.toList, []] := by
    have e := sqlLex_lit_append address.toList [squote] [] [[]] ha sqlLex_closeLit_end
    simpa using e
  have e2 : SQLiteStorage.sqlLex SQLiteStorage.LexMode.plain
      (squote :: (address.toList ++ squote :: [])) =
      some [[], address.toList, []] :=
    sqlLex_enterLit _ _ e1
  have e3 : SQLiteStorage.sqlLex SQLiteStorage.LexMode.plain
      (("WHERE address = " : String).toList ++
        squote :: (address.toList ++ squote :: [])) =
      some [("WHERE address = " : String).toList, address.toList, []] := by
    have e := sqlLex_plain_append ("WHERE address = " : String).toList _ []
      [address.toList, []] hWnq e2
    simpa using e
  have e4 : SQLiteStorage.sqlLex SQLiteStorage.LexMode.lit
      (squote :: (SQLiteStorage.updMid.toList ++
        squote :: (address.toList ++ squote :: []))) =
      some [[], SQLiteStorage.updMid.toList, address.toList, []] := by
    rw [hmid, List.cons_append]
    exact sqlLex_closeLit_cons (Char.ofNat 32) _ _ _ (by decide) e3
  have e5 : SQLiteStorage.sqlLex SQLiteStorage.LexMode.lit
      (name.toList ++ squote :: (SQLiteStorage.updMid.toList ++
        squote :: (address.toList ++ squote :: []))) =
      some [name.toList, SQLiteStorage.updMid.toList, address.toList, []] := by
    have e := sqlLex_lit_append name.toList _ []
      [SQLiteStorage.updMid.toList, address.toList, []] hn e4
    simpa using e
  have e6 : SQLiteStorage.sqlLex SQLiteStorage.LexMode.plain
      (squote :: (name.toList ++ squote :: (SQLiteStorage.updMid.toList ++
        squote :: (address.toList ++ squote :: [])))) =
      some [[], name.toList, SQLiteStorage.updMid.toList, address.toList, []] :=
    sqlLex_enterLit _ _ e5
  have e7 := sqlLex_plain_append SQLiteStorage.updHead.toList _ []
    [name.toList, SQLiteStorage.updMid.toList, address.toList, []] hHead e6
  rw [hsql]
  simpa using e7

/-- C4 (amended): for every name and address free of single quotes, the
interpolated statement parses, `change_name` returns `True`, and it sets the
Name of exactly the records whose Address equals the given address (a no-op
that still reports success when none matches).  The original claim's
never-fails clause is false: some quote-containing inputs — a lone unpaired
quote, as in the counterexample — leave an unterminated literal and the call
fails.  (Other quote-containing inputs behave differently: a doubled quote is
a valid escape and succeeds, and injection-shaped inputs parse as different
statements.) -/
theorem change_name_quote_free_updates_exact_match
    (s : Store) (address name : String)
    (hn : squote ∉ name.toList) (ha : squote ∉ address.toList) :
    SQLiteStorage.change_name s address name =
      Except.ok (true, s.map (fun r =>
        if r.Address == address then { r with Name := name } else r)) := by
  have hlex := sqlLex_change_name_sql name address hn ha
  have hexec : SQLiteStorage.execUpdate (SQLiteStorage.change_name_sql name address) s =
      Except.ok (s.map (fun r =>
        if r.Address == address then { r with Name := name } else r)) := by
    unfold SQLiteStorage.execUpdate
    rw [hlex]
    show (if SQLiteStorage.updHead.toList = SQLiteStorage.updHead.toList ∧
        SQLiteStorage.updMid.toList = SQLiteStorage.updMid.toList ∧ ([] : List Char) = [] then
        Except.ok (s.map (fun r =>
          if r.Address == String.mk address.toList then
            { Name := String.mk name.toList, Address := r.Address } else r))
      else Except.error "statement outside modelled SQL fragment") = _
    rw [if_pos ⟨rfl, rfl, rfl⟩]
    simp only [mk_toList]
  unfold SQLiteStorage.change_name
  rw [hexec]

theorem change_name_quote_free_updates_exact_match_witness :
    SQLiteStorage.change_name [{ Name := "Bob", Address := "b@y.com" }] "b@y.com"
      "Carol" = Except.ok (true, [{ Name := "Carol", Address := "b@y.com" }]) := by
  rw [change_name_quote_free_updates_exact_match _ _ _ (by decide) (by decide)]
  rfl

/-- C5 (counterexample): the round trip fails already in the `abook` format —
encoding a record whose Name holds a tab produces a line whose decode raises
`ValueError` (three-way split against a two-element unpacking) instead of
returning the original pair. -/
theorem abook_roundtrip_fails_on_tab_in_name :
    format_address faStub { Name := "a" ++ tabS ++ "b", Address := "x" } "abook" =
      Except.ok ("x" ++ tabS ++ "a" ++ tabS ++ "b") ∧
    decode_line paStub ("x" ++ tabS ++ "a" ++ tabS ++ "b") "abook" =
      Except.error "ValueError: too many values to unpack" := ⟨rfl, rfl⟩

/-- C5 (amended): restricted to the `abook` format and to records in which
neither field holds a tab character, decoding the encoding yields back
exactly the original (name, address) pair.  (The `email` format delegates to
the external `formataddr`/`parseaddr` pair and carries no such guarantee;
see the counterexample for how the claim fails as stated.) -/
theorem abook_roundtrip_no_tab
    (fa : String × String → String) (pa : String → String × String) (r : Record)
    (hn : tabChar ∉ r.Name.toList) (ha : tabChar ∉ r.Address.toList) :
    format_address fa r "abook" = Except.ok (r.Address ++ tabS ++ r.Name) ∧
    decode_line pa (r.Address ++ tabS ++ r.Name) "abook" =
      Except.ok (r.Name, r.Address) := by
  constructor
  · rfl
  · have hline : (r.Address ++ tabS ++ r.Name).toList =
        r.Address.toList ++ tabChar :: r.Name.toList := by
      simp only [toList_append, tabS, toList_mk, List.append_assoc,
        List.singleton_append]
    have hmem : tabChar ∈ (r.Address ++ tabS ++ r.Name).toList := by
      rw [hline]
      exact List.mem_append_right _ (List.mem_cons_self _ _)
    have hcontains : (r.Address ++ tabS ++ r.Name).toList.contains tabChar = true := by
      simpa [List.contains] using hmem
    have hsplit : splitChar tabChar (r.Address ++ tabS ++ r.Name).toList =
        [r.Address.toList, r.Name.toList] := by
      rw [hline, splitChar_sep_append _ _ _ ha, splitChar_no_sep _ _ hn]
    unfold decode_line
    rw [if_pos rfl, hcontains]
    show (match splitChar tabChar (r.Address ++ tabS ++ r.Name).toList with
      | [a, n] => Except.ok (String.mk n, String.mk a)
      | _ => Except.error "ValueError: too many values to unpack") = _
    rw [hsplit]
    show Except.ok (String.mk r.Name.toList, String.mk r.Address.toList) = _
    rw [mk_toList, mk_toList]

theorem abook_roundtrip_no_tab_witness :
    format_address faStub { Name := "Alice", Address := "a@x.com" } "abook" =
      Except.ok ("a@x.com" ++ tabS ++ "Alice") ∧
    decode_line paStub ("a@x.com" ++ tabS ++ "Alice") "abook" =
      Except.ok ("Alice", "a@x.com") :=
  abook_roundtrip_no_tab faStub paStub
    { Name := "Alice", Address := "a@x.com" } (by decide) (by decide)

theorem parse_mail_yield_nonempty :
    ∀ (pairs state : List (String × String)) y,
      y ∈ (MailParser.parse_mail state pairs).1 → y.2 ≠ "" := by
  intro pairs
  induction pairs with
  | nil =>
    intro state y hy
    simp [MailParser.parse_mail] at hy
  | cons p rest ih =>
    intro state y hy
    obtain ⟨n, rawa⟩ := p
    by_cases hcond : ((normAddr rawa != "") &&
        !(state.any (fun q => q.1 == normAddr rawa))) = true
    · rw [MailParser.parse_mail] at hy
      simp only [hcond, if_true] at hy
      rcases List.mem_cons.mp hy with hy1 | hy2
      · subst hy1
        rw [Bool.and_eq_true] at hcond
        simpa using hcond.1
      · exact ih ((normAddr rawa, normName n) :: state) y hy2
    · rw [MailParser.parse_mail] at hy
      have hcondF : ((normAddr rawa != "") &&
          !(state.any (fun q => q.1 == normAddr rawa))) = false := by
        simpa using hcond
      simp only [hcondF, Bool.false_eq_true, if_false] at hy
      exact ih state y hy

theorem parse_mail_countP (a : String) (ha : a ≠ "") :
    ∀ (pairs state : List (String × String)),
      ((MailParser.parse_mail state pairs).1.countP (fun y => y.2 == a)) =
        (if state.any (fun p => p.1 == a) then 0
         else if pairs.any (fun p => normAddr p.2 == a) then 1 else 0) := by
  intro pairs
  induction pairs with
  | nil =>
    intro state
    by_cases hst : state.any (fun p => p.1 == a) = true <;>
      simp [MailParser.parse_mail, hst]
  | cons p rest ih =>
    intro state
    obtain ⟨n, rawa⟩ := p
    by_cases hcond : ((normAddr rawa != "") &&
        !(state.any (fun q => q.1 == normAddr rawa))) = true
    · rw [MailParser.parse_mail]
      simp only [hcond, if_true, List.countP_cons]
      have hrec := ih ((normAddr rawa, normName n) :: state)
      by_cases haddr : normAddr rawa = a
      · have hbeqT : (normAddr rawa == a) = true := by simp [haddr]
        have hstF : state.any (fun p => p.1 == a) = false := by
          rw [Bool.and_eq_true] at hcond
          have h2 := hcond.2
          rw [← haddr]
          simpa using h2
        have hstT : (((normAddr rawa, normName n) :: state).any
            (fun p => p.1 == a)) = true := by
          simp [List.any_cons, haddr]
        rw [hrec, hstT, hstF, List.any_cons]
        show (if (true = true) then 0
            else if (rest.any fun p => normAddr p.2 == a) = true then 1 else 0) +
            (if (normAddr rawa == a) = true then 1 else 0) =
          (if (false = true) then 0
            else if (normAddr rawa == a || rest.any fun p => normAddr p.2 == a) = true
              then 1 else 0)
        rw [hbeqT, Bool.true_or]
        simp
      · have hbeq : (normAddr rawa == a) = false := by simpa using haddr
        have hstEq : (((normAddr rawa, normName n) :: state).any
            (fun p => p.1 == a)) = state.any (fun p => p.1 == a) := by
          simp [List.any_cons, hbeq]
        rw [hrec, hstEq, List.any_cons]
        show (if (state.any fun p => p.1 == a) = true then 0
            else if (rest.any fun p => normAddr p.2 == a) = true then 1 else 0) +
            (if (normAddr rawa == a) = true then 1 else 0) =
          (if (state.any fun p => p.1 == a) = true then 0
            else if (normAddr rawa == a || rest.any fun p => normAddr p.2 == a) = true
              then 1 else 0)
        rw [hbeq, Bool.false_or]
        simp
    · rw [MailParser.parse_mail]
      have hcondF : ((normAddr rawa != "") &&
          !(state.any (fun q => q.1 == normAddr rawa))) = false := by
        simpa using hcond
      simp only [hcondF, Bool.false_eq_true, if_false]
      rw [ih state]
      by_cases haddr : normAddr rawa = a
      · have hne : (normAddr rawa != "") = true := by
          rw [haddr]
          simpa using ha
        have hstT : state.any (fun p => p.1 == a) = true := by
          rw [hne] at hcondF
          rw [← haddr]
          simpa using hcondF
        rw [hstT]
        simp
      · have hbeq : (normAddr rawa == a) = false := by simpa using haddr
        rw [List.any_cons]
        show _ = (if (state.any fun p => p.1 == a) = true then 0
            else if (normAddr rawa == a || rest.any fun p => normAddr p.2 == a) = true
              then 1 else 0)
        rw [hbeq, Bool.false_or]

/-- C7: over the pairs produced by the joint header parse of one message, a
(normalized, non-empty) address occurring two or more times is yielded by a
fresh extraction exactly once, and every yielded tuple has a non-empty
address. -/
theorem parse_mail_yields_each_address_once_nonempty
    (pairs : List (String × String)) (a : String) (ha : a ≠ "")
    (hocc : 2 ≤ pairs.countP (fun p => normAddr p.2 == a)) :
    ((MailParser.parse_mail [] pairs).1.countP (fun y => y.2 == a) = 1) ∧
    ∀ y ∈ (MailParser.parse_mail [] pairs).1, y.2 ≠ "" := by
  constructor
  · rw [parse_mail_countP a ha pairs []]
    have hpos : 0 < pairs.countP (fun p => normAddr p.2 == a) :=
      lt_of_lt_of_le (by norm_num) hocc
    have hany : pairs.any (fun p => normAddr p.2 == a) = true := by
      rw [List.countP_pos_iff] at hpos
      exact List.any_eq_true.mpr hpos
    rw [hany]
    simp
  · exact fun y hy => parse_mail_yield_nonempty pairs [] y hy

theorem parse_mail_yields_each_address_once_nonempty_witness :
    (MailParser.parse_mail [] [("Bob", "BOB@x.com"), ("Bobby", "bob@X.com;")]).1.countP
      (fun y => y.2 == "bob@x.com") = 1 :=
  (parse_mail_yields_each_address_once_nonempty
    [("Bob", "BOB@x.com"), ("Bobby", "bob@X.com;")] "bob@x.com"
    (by decide) (by decide)).1

/-- C9: decoding in `abook` format fails with `ValueError` exactly on lines
holding two or more tab characters (the two-element unpacking of the split),
and succeeds on every line with at most one tab. -/
theorem decode_abook_errors_iff_two_or_more_tabs
    (pa : String → String × String) (line : String) :
    (2 ≤ line.toList.count tabChar →
      decode_line pa line "abook" =
        Except.error "ValueError: too many values to unpack") ∧
    (line.toList.count tabChar ≤ 1 →
      ∃ p, decode_line pa line "abook" = Except.ok p) := by
  have hlen := splitChar_length tabChar line.toList
  constructor
  · intro h2
    have hmem : tabChar ∈ line.toList := by
      rw [← List.count_pos_iff]
      omega
    have hcont : line.toList.contains tabChar = true := by
      simpa [List.contains] using hmem
    unfold decode_line
    rw [if_pos rfl, hcont, if_pos rfl]
    rcases hsp : splitChar tabChar line.toList with _ | ⟨x, _ | ⟨y, _ | ⟨z, t⟩⟩⟩
    · exact absurd hsp (splitChar_ne_nil _ _)
    · rfl
    · rw [hsp] at hlen
      simp only [List.length_cons, List.length_nil] at hlen
      omega
    · rfl
  · intro h1
    by_cases hc0 : line.toList.count tabChar = 0
    · have hnmem : tabChar ∉ line.toList := List.count_eq_zero.mp hc0
      have hcont : line.toList.contains tabChar = false := by
        simpa [List.contains] using hnmem
      refine ⟨("", line), ?_⟩
      unfold decode_line
      rw [if_pos rfl, hcont, if_neg Bool.false_ne_true]
    · have hmem : tabChar ∈ line.toList := by
        rw [← List.count_pos_iff]
        omega
      have hcont : line.toList.contains tabChar = true := by
        simpa [List.contains] using hmem
      rcases hsp : splitChar tabChar line.toList with _ | ⟨x, _ | ⟨y, _ | ⟨z, t⟩⟩⟩
      · exact absurd hsp (splitChar_ne_nil _ _)
      · rw [hsp] at hlen
        simp only [List.length_cons, List.length_nil] at hlen
        omega
      · refine ⟨(String.mk y, String.mk x), ?_⟩
        unfold decode_line
        rw [if_pos rfl, hcont, if_pos rfl, hsp]
      · rw [hsp] at hlen
        simp only [List.length_cons, List.length_nil] at hlen
        omega

theorem decode_abook_errors_iff_two_or_more_tabs_witness :
    decode_line paStub ("x" ++ tabS ++ "a" ++ tabS ++ "b" ++ tabS ++ "c") "abook" =
      Except.error "ValueError: too many values to unpack" ∧
    ∃ p, decode_line paStub ("x" ++ tabS ++ "n") "abook" = Except.ok p :=
  ⟨(decode_abook_errors_iff_two_or_more_tabs paStub _).1 (by decide),
   (decode_abook_errors_iff_two_or_more_tabs paStub _).2 (by decide)⟩

/-- C10: `lookup` interpolates the match string straight into the fts MATCH
expression, so some inputs — already the lone double-quote character — leave
an unterminated phrase and the query fails with a malformed-MATCH error on
every store; for a plain non-empty alphanumeric token the query does behave
as a whole-word prefix search: it returns exactly the records having a token
(in Name or Address) starting with the case-folded match. -/
theorem lookup_quote_errors_and_plain_token_prefix_search :
    (∀ s : Store, SQLiteStorage.lookup s dquoteS =
      Except.error "malformed MATCH expression") ∧
    (∀ (s : Store) (m : String), m ≠ "" →
      m.toList.all SQLiteStorage.isTokenChar = true →
      SQLiteStorage.lookup s m = Except.ok (s.filter (fun r =>
        (SQLiteStorage.ftsRecordTokens r).any (fun t =>
          List.isPrefixOf (m.toList.map Char.toLower) t)))) := by
  constructor
  · intro s
    rfl
  · intro s m hm hall
    have hnq : squote ∉ m.toList := by
      intro hmem
      have h := List.all_eq_true.mp hall squote hmem
      exact absurd h (by decide)
    have hnd : dquote ∉ m.toList := by
      intro hmem
      have h := List.all_eq_true.mp hall dquote hmem
      exact absurd h (by decide)
    have hstar : ("*" : String).toList = [Char.ofNat 42] := rfl
    have hsql : (SQLiteStorage.lookup_sql m).toList =
        SQLiteStorage.selHead.toList ++ squote ::
          ((dquote :: (m.toList ++ [Char.ofNat 42, dquote])) ++ squote :: []) := by
      simp only [SQLiteStorage.lookup_sql, toList_append, squoteS, dquoteS, toList_mk,
        hstar, List.append_assoc, List.singleton_append, List.cons_append,
        List.nil_append]
    have hrest : SQLiteStorage.dropPrefixChars SQLiteStorage.selHead.toList
        (SQLiteStorage.lookup_sql m).toList = some (squote ::
          ((dquote :: (m.toList ++ [Char.ofNat 42, dquote])) ++ squote :: [])) := by
      rw [hsql]
      exact dropPrefixChars_append _ _
    have hqint : squote ∉ dquote :: (m.toList ++ [Char.ofNat 42, dquote]) := by
      intro hmem
      rcases List.mem_cons.mp hmem with h | h
      · exact absurd h (by decide)
      · rcases List.mem_append.mp h with h2 | h2
        · exact hnq h2
        · exact absurd h2 (by decide)
    have hlit : SQLiteStorage.parseSqlStringLit (squote ::
        ((dquote :: (m.toList ++ [Char.ofNat 42, dquote])) ++ squote :: [])) =
        some (dquote :: (m.toList ++ [Char.ofNat 42, dquote])) := by
      unfold SQLiteStorage.parseSqlStringLit
      rw [splitChar_cons_sep, splitChar_sep_append _ _ _ hqint]
      show (if ([] : List Char) = [] ∧ ([] : List Char) = [] then
        some (dquote :: (m.toList ++ [Char.ofNat 42, dquote])) else none) = _
      rw [if_pos (show ([] : List Char) = [] ∧ ([] : List Char) = [] from ⟨rfl, rfl⟩)]
    have hndstar : dquote ∉ m.toList ++ [Char.ofNat 42] := by
      intro hmem
      rcases List.mem_append.mp hmem with h | h
      · exact hnd h
      · exact absurd h (by decide)
    have hc0 : m.toList.count dquote = 0 := by
      rw [List.count_eq_zero]
      exact hnd
    have hcount : (dquote :: (m.toList ++ [Char.ofNat 42, dquote])).count dquote = 2 := by
      rw [List.count_cons_self, List.count_append, hc0]
      decide
    have hsplit2 : splitChar dquote (dquote :: (m.toList ++ [Char.ofNat 42, dquote])) =
        [[], m.toList ++ [Char.ofNat 42], []] := by
      rw [splitChar_cons_sep]
      have hassoc : m.toList ++ [Char.ofNat 42, dquote] =
          (m.toList ++ [Char.ofNat 42]) ++ dquote :: [] := by
        simp [List.append_assoc]
      rw [hassoc, splitChar_sep_append _ _ _ hndstar]
      rfl
    have hfts : SQLiteStorage.ftsEval (dquote :: (m.toList ++ [Char.ofNat 42, dquote])) s =
        Except.ok (s.filter (fun r =>
          (SQLiteStorage.ftsRecordTokens r).any (fun t =>
            List.isPrefixOf (m.toList.map Char.toLower) t))) := by
      unfold SQLiteStorage.ftsEval
      rw [hcount]
      rw [if_neg (by decide)]
      rw [hsplit2]
      show (match (m.toList ++ [Char.ofNat 42]).reverse with
        | c :: revTok =>
          if c = Char.ofNat 42 ∧ revTok.reverse ≠ [] ∧
              revTok.reverse.all SQLiteStorage.isTokenChar then
            Except.ok (s.filter (fun r =>
              (SQLiteStorage.ftsRecordTokens r).any (fun t =>
                List.isPrefixOf (revTok.reverse.map Char.toLower) t)))
          else Except.error "fts query shape outside modelled fragment"
        | [] => Except.error "fts query shape outside modelled fragment") = _
      have hrev : (m.toList ++ [Char.ofNat 42]).reverse =
          Char.ofNat 42 :: m.toList.reverse := by
        simp
      rw [hrev]
      show (if Char.ofNat 42 = Char.ofNat 42 ∧ m.toList.reverse.reverse ≠ [] ∧
          m.toList.reverse.reverse.all SQLiteStorage.isTokenChar then
          Except.ok (s.filter (fun r =>
            (SQLiteStorage.ftsRecordTokens r).any (fun t =>
              List.isPrefixOf (m.toList.reverse.reverse.map Char.toLower) t)))
        else Except.error "fts query shape outside modelled fragment") = _
      simp only [List.reverse_reverse]
      rw [if_pos ⟨trivial, toList_ne_nil m hm, hall⟩]
    show SQLiteStorage.execSelect (SQLiteStorage.lookup_sql m) s = _
    unfold SQLiteStorage.execSelect
    rw [hrest]
    show (match SQLiteStorage.parseSqlStringLit (squote ::
        ((dquote :: (m.toList ++ [Char.ofNat 42, dquote])) ++ squote :: [])) with
      | none => Except.error "near error: SQL syntax error"
      | some interior => SQLiteStorage.ftsEval interior s) = _
    rw [hlit]
    show SQLiteStorage.ftsEval (dquote :: (m.toList ++ [Char.ofNat 42, dquote])) s = _
    exact hfts

theorem lookup_quote_errors_and_plain_token_prefix_search_witness :
    SQLiteStorage.lookup
      [{ Name := "Alice", Address := "alice@x.com" },
       { Name := "Bob", Address := "bob@y.com" }] "ali" =
      Except.ok [{ Name := "Alice", Address := "alice@x.com" }] := by
  rw [lookup_quote_errors_and_plain_token_prefix_search.2 _ "ali"
    (by decide) (by decide)]
  rfl
